import Mathlib

/-!
# Verification of the delta xDS protocol state machine

A shallow embedding of the server-side delta (incremental) xDS discovery
protocol: the per-connection watched-resource table, the request processor
(`shouldRespondDelta`, `processDeltaRequest`), the flow-controlled push
scheduler (`pushConnectionDelta`), the push send path (`pushDeltaXds`,
`sendDelta`) and the receive loop's first-frame validation (`receiveDelta`).

Go maps from strings are embedded as functions `String → Option _`; Go
string sets (`sets.Set`) as duplicate-free lists; timestamps as `Nat`;
fallible operations return explicit outcome types.
-/

/-- The error detail carried by a NACK request (`google.rpc.Status`). -/
structure ErrorDetailMsg where
  code : Int := 0
  message : String := ""
  deriving DecidableEq, Repr

/-- The node identity carried (only) on the first frame of a stream. -/
structure NodeMsg where
  Id : String := ""
  deriving DecidableEq, Repr

/-- Inbound protocol frame: `discovery.DeltaDiscoveryRequest`. -/
structure DeltaDiscoveryRequest where
  TypeUrl : String := ""
  ResourceNamesSubscribe : List String := []
  ResourceNamesUnsubscribe : List String := []
  ResponseNonce : String := ""
  ErrorDetail : Option ErrorDetailMsg := none
  Node : Option NodeMsg := none
  deriving DecidableEq, Repr

/-- `model.WatchedResource`: per (connection, resource type) protocol state.
Go zero values (`""`, `0`) are the field defaults. -/
structure WatchedResource where
  TypeUrl : String := ""
  ResourceNames : List String := []
  NonceSent : String := ""
  NonceAcked : String := ""
  NonceNacked : String := ""
  VersionSent : String := ""
  LastSent : Nat := 0
  deriving DecidableEq, Repr

/-- An opaque named resource payload (`discovery.Resource`); only the name
matters to the protocol layer. -/
structure ResourceMsg where
  Name : String := ""
  deriving DecidableEq, Repr

/-- Outbound protocol frame: `discovery.DeltaDiscoveryResponse`. -/
structure DeltaDiscoveryResponse where
  TypeUrl : String := ""
  SystemVersionInfo : String := ""
  Nonce : String := ""
  Resources : List ResourceMsg := []
  RemovedResources : List String := []
  deriving DecidableEq, Repr

/-- The immutable global push context; only the version strings are relevant
to the protocol layer. -/
structure PushContext where
  PushVersion : String := ""
  LedgerVersion : String := ""
  deriving DecidableEq, Repr

/-- Trigger reason tags on a push request (`model.TriggerReason`). -/
inductive TriggerReason where
  | proxyRequest
  | configUpdate
  | globalUpdate
  deriving DecidableEq, Repr

/-- `model.PushRequest`: a pending configuration-change push. -/
structure PushRequest where
  Full : Bool := false
  Push : PushContext := {}
  Reason : List TriggerReason := []
  Start : Nat := 0
  deriving DecidableEq, Repr

/-- The per-connection watched-resource table, `map[string]*model.WatchedResource`. -/
abbrev WatchedMap : Type := String → Option WatchedResource

/-- Pointwise update of the watched-resource table (Go map assignment). -/
def WatchedMap.update (m : WatchedMap) (t : String) (w : WatchedResource) : WatchedMap :=
  fun t' => if t' = t then some w else m t'

/-- The per-connection blocked-push map, `map[string]*model.PushRequest`. -/
abbrev BlockedMap : Type := String → Option PushRequest

/-- Pointwise update of the blocked-push map (Go map assignment). -/
def BlockedMap.update (m : BlockedMap) (t : String) (p : PushRequest) : BlockedMap :=
  fun t' => if t' = t then some p else m t'

/-- Key removal from the blocked-push map (Go `delete`). -/
def BlockedMap.erase (m : BlockedMap) (t : String) : BlockedMap :=
  fun t' => if t' = t then none else m t'

/-! ## Go string sets (`pilot/pkg/util/sets`)

Modelled from the spec: the `sets` utility package is outside the embedded
file; the spec requires plain mathematical-set semantics ("ordered set of
subscribed resource names (set semantics, insertion order irrelevant)",
"idempotent union/difference"). A set of strings is embedded as a
duplicate-free list; `SortedList` returns the elements in increasing order. -/

/-- A Go `sets.Set` of strings: a duplicate-free list (membership is all
that matters; the holding order is irrelevant because every observation
goes through `sortedList`). -/
abbrev GoSet : Type := List String

/-- `sets.NewSet(items...)`: build a set from a list. -/
def NewSet (items : List String) : GoSet := items.dedup

/-- `s.Insert(items...)`: add every item to the set. -/
def GoSet.insert (s : GoSet) (items : List String) : GoSet :=
  (s ++ items).dedup

/-- `s.Delete(items...)`: remove every item from the set. -/
def GoSet.delete (s : GoSet) (items : List String) : GoSet :=
  s.filter (fun x => !items.contains x)

/-- Lexicographic order on strings through their character lists (the order
used by Go's `sort.Strings`); kernel-computable, and equivalent to `≤` on
`String` by `strLe_iff`. -/
def strLe (a b : String) : Prop := a.data ≤ b.data

instance : DecidableRel strLe :=
  fun a b => inferInstanceAs (Decidable (a.data ≤ b.data))

instance : IsTotal String strLe := ⟨fun a b => le_total a.data b.data⟩

instance : IsTrans String strLe := ⟨fun _ _ _ => le_trans (α := List Char)⟩

/-- The sorting order coincides with `≤` on `String`. -/
theorem strLe_iff (a b : String) : strLe a b ↔ a ≤ b := by
  rw [String.le_iff_toList_le]; exact Iff.rfl

/-- `s.SortedList()`: the elements in increasing lexicographic order. -/
def GoSet.sortedList (s : GoSet) : List String :=
  List.insertionSort strLe s

/-- Membership in the embedded set agrees with list membership. -/
theorem GoSet.mem_sortedList (s : GoSet) (x : String) :
    x ∈ s.sortedList ↔ x ∈ s :=
  List.mem_insertionSort _

/-- The elements of the underlying list of `NewSet`. -/
theorem mem_NewSet (items : List String) (x : String) :
    x ∈ NewSet items ↔ x ∈ items :=
  List.mem_dedup

/-!  ## `deltaWatchedResources` (the subscription-set update)  -/

/-- `deltaWatchedResources(existing, request)`: the new stored subscription
list — the set of `existing` plus the subscribe names minus the unsubscribe
names, returned sorted. -/
def deltaWatchedResources (existing : List String) (request : DeltaDiscoveryRequest) : List String :=
  GoSet.sortedList
    (GoSet.delete
      (GoSet.insert (NewSet existing) request.ResourceNamesSubscribe)
      request.ResourceNamesUnsubscribe)

/-- `extractNames(res)`: the names of a generated resource list. -/
def extractNames (res : List ResourceMsg) : List String :=
  res.map (·.Name)

/-- Modelled from the spec: `listEqualUnordered` lives outside the embedded
file; the spec requires that "name-set comparison for 'did it change' must
be order-independent", i.e. equality of the underlying finite sets. -/
def listEqualUnordered (a b : List String) : Bool :=
  decide (a.toFinset = b.toFinset)

/-- Sanity: a basic evaluation of the subscription-set update. -/
example :
    deltaWatchedResources ["b", "a"]
      { TypeUrl := "t", ResourceNamesSubscribe := ["c", "a"],
        ResourceNamesUnsubscribe := ["b"] } = ["a", "c"] := by decide

/-- The new subscription set, as a finite set, is
`(existing ∪ subscribe) \ unsubscribe`. -/
theorem deltaWatchedResources_toFinset (existing : List String)
    (request : DeltaDiscoveryRequest) :
    (deltaWatchedResources existing request).toFinset =
      (existing.toFinset ∪ request.ResourceNamesSubscribe.toFinset) \
        request.ResourceNamesUnsubscribe.toFinset := by
  ext x
  simp [deltaWatchedResources, GoSet.sortedList, GoSet.delete, GoSet.insert, NewSet,
    List.mem_insertionSort, List.mem_filter, List.mem_dedup, List.mem_append,
    Finset.mem_sdiff, Finset.mem_union, List.mem_toFinset, and_comm]

/-- The stored subscription list is duplicate-free. -/
theorem deltaWatchedResources_nodup (existing : List String)
    (request : DeltaDiscoveryRequest) :
    (deltaWatchedResources existing request).Nodup := by
  have hperm := List.perm_insertionSort (α := String) strLe
    (GoSet.delete (GoSet.insert (NewSet existing) request.ResourceNamesSubscribe)
      request.ResourceNamesUnsubscribe)
  refine (List.Perm.nodup_iff hperm).mpr ?_
  unfold GoSet.delete GoSet.insert
  exact List.Nodup.filter _ (List.nodup_dedup _)

/-- The stored subscription list is sorted (with respect to `≤` on `String`). -/
theorem deltaWatchedResources_sorted (existing : List String)
    (request : DeltaDiscoveryRequest) :
    List.Sorted (· ≤ ·) (deltaWatchedResources existing request) :=
  (List.sorted_insertionSort strLe _).imp (fun h => (strLe_iff _ _).mp h)

/-! ## `shouldRespondDelta` (the request processor's ACK/NACK decision)

The function both decides whether a response is owed and mutates the
watched-resource table; the embedding returns the decision together with
the updated table. The `panic` reachable under `features.EnableUnsafeAssertions`
is an explicit outcome. -/

/-- Outcome of `shouldRespondDelta`: the respond decision plus the updated
watched-resource table, or the debug-build assertion failure. -/
inductive RespondResult where
  | ok (respond : Bool) (m : WatchedMap)
  | assertionFailed
  deriving Inhabited

/-- `shouldRespondDelta(con, request)`: applies the ack/nack rules of the
delta xDS protocol. `unsafeAssertions` embeds `features.EnableUnsafeAssertions`. -/
def shouldRespondDelta (unsafeAssertions : Bool) (m : WatchedMap)
    (request : DeltaDiscoveryRequest) : RespondResult :=
  -- NACK: an error detail means the previous response was rejected.
  if request.ErrorDetail.isSome then
    match m request.TypeUrl with
    | some w => .ok false (m.update request.TypeUrl { w with NonceNacked := request.ResponseNonce })
    | none => .ok false m
  else
    match m request.TypeUrl with
    | none =>
        -- First request for this type (init or reconnect): record the names
        -- and always respond.
        .ok true (m.update request.TypeUrl
          { TypeUrl := request.TypeUrl,
            ResourceNames := deltaWatchedResources [] request })
    | some previousInfo =>
        -- Stale/expired nonce: clear the nack marker, do not respond.
        if request.ResponseNonce ≠ "" ∧ request.ResponseNonce ≠ previousInfo.NonceSent then
          .ok false (m.update request.TypeUrl { previousInfo with NonceNacked := "" })
        else
          -- Nonce match: genuine ACK. Record ack details and respond only on
          -- a resource-name change.
          let previousResources := previousInfo.ResourceNames
          let deltaResources := deltaWatchedResources previousResources request
          let m' := m.update request.TypeUrl
            { previousInfo with
              NonceAcked := request.ResponseNonce,
              NonceNacked := "",
              ResourceNames := deltaResources }
          let oldAck := listEqualUnordered previousResources deltaResources
          let newAck := request.ResponseNonce ≠ ""
          if decide newAck ≠ oldAck ∧ unsafeAssertions then
            .assertionFailed
          else
            .ok (!oldAck) m'

/-- Whether the outcome is the debug-build assertion failure. -/
def RespondResult.failed : RespondResult → Bool
  | .assertionFailed => true
  | .ok _ _ => false

/-- The respond decision in the production configuration
(`features.EnableUnsafeAssertions` off), where no assertion can fire. -/
def shouldRespondBool (m : WatchedMap) (request : DeltaDiscoveryRequest) : Bool :=
  match shouldRespondDelta false m request with
  | .ok b _ => b
  | .assertionFailed => false

/-- The watched-resource table after processing a request in the production
configuration. -/
def shouldRespondMap (m : WatchedMap) (request : DeltaDiscoveryRequest) : WatchedMap :=
  match shouldRespondDelta false m request with
  | .ok _ m' => m'
  | .assertionFailed => m

/-! ## `processDeltaRequest` (supplying the push when a response is owed) -/

/-- The action `processDeltaRequest` takes after the respond decision:
either call `pushDeltaXds` with a chosen push request, or return with no
action. Carries the resulting blocked-push map. -/
inductive DeltaProcessAction where
  | respond (request : PushRequest) (blocked : BlockedMap)
  | ackNoAction (blocked : BlockedMap)

/-- The request-selection core of `processDeltaRequest` (after the
debug-type and `shouldProcessRequest` early returns): when a response is
owed, build a brand-new full push from the latest global context `push`
and leave the blocked map alone; otherwise dequeue the blocked push for
the type — if one exists it is sent, else nothing happens. `ProxyRequest`
is appended to the trigger reasons and the start time is stamped. -/
def processDeltaRequestCore (shouldRespond : Bool) (push : PushContext)
    (blocked : BlockedMap) (typeUrl : String) (now : Nat) : DeltaProcessAction :=
  if shouldRespond then
    .respond
      { Full := true, Push := push, Reason := [TriggerReason.proxyRequest], Start := now }
      blocked
  else
    match blocked typeUrl with
    | some queued =>
        .respond
          { queued with Reason := queued.Reason ++ [TriggerReason.proxyRequest], Start := now }
          (blocked.erase typeUrl)
    | none => .ackNoAction (blocked.erase typeUrl)

/-! ## `pushConnectionDelta` (the flow-controlled push scheduler) -/

/-- Modelled from the spec: `PushRequest.CopyMerge` lives outside the
embedded file; per the spec, deferred pushes "must be merged (union of
reasons, latest context) rather than dropped", and a full-push flag is
never lost. A missing first argument (Go nil receiver) yields the other
request unchanged. -/
def PushRequest.copyMerge : Option PushRequest → PushRequest → PushRequest
  | none, other => other
  | some first, other =>
      { Full := first.Full || other.Full,
        Push := other.Push,
        Reason := first.Reason ++ other.Reason,
        Start := first.Start }

/-- The per-type decision of the push scheduler: send now, or defer and
record the (merged) blocked push. -/
inductive PushDecision where
  | sendNow (blocked : BlockedMap)
  | deferred (blocked : BlockedMap)

/-- The per-watched-type body of the loop in `pushConnectionDelta`:
with flow control disabled the push always goes out; with flow control
enabled it goes out when the type is synced or the stuck timeout fired,
and is otherwise merged into the blocked-push slot for the type.
`synced` and `timeout` embed the two results of `con.Synced(w.TypeUrl)`. -/
def pushConnectionDeltaStep (enableFlowControl synced timeout : Bool)
    (pushRequest : PushRequest) (blocked : BlockedMap) (typeUrl : String) : PushDecision :=
  if !enableFlowControl then
    .sendNow blocked
  else if synced || timeout then
    .sendNow blocked
  else
    .deferred (blocked.update typeUrl (PushRequest.copyMerge (blocked typeUrl) pushRequest))

/-! ## `pushDeltaXds` (the push send path and its diff computation) -/

/-- The outcome of invoking the resource generator in `pushDeltaXds`: the
generated resources (`none` embeds a Go nil slice), the explicit removed
list of a delta-capable generator, whether the generator reported that it
used delta, and whether it returned an error. -/
structure GenResult where
  res : Option (List ResourceMsg) := none
  deletedRes : Option (List String) := none
  usedDelta : Bool := false
  generr : Bool := false
  deriving DecidableEq, Repr

/-- Modelled from the spec: the nonce minting helper lives outside the
embedded file; the spec describes the nonce as an opaque token "derived
from version plus disambiguator". -/
def nonce (ledgerVersion : String) (disambiguator : String) : String :=
  ledgerVersion ++ "/" ++ disambiguator

/-- The watched resource whose names drive generation: narrowed to the
request's subscribe list when the client asked for specific resources. -/
def effectiveWatched (w : WatchedResource) (subscribe : Option (List String)) : WatchedResource :=
  match subscribe with
  | some s => { TypeUrl := w.TypeUrl, ResourceNames := s }
  | none => w

/-- The response-construction core of `pushDeltaXds` (after the nil-watch
and nil-generator early returns): narrow the watched resource to the
request's subscribe list when present, bail out when the generator errs or
produces nothing, and otherwise build the outbound frame, computing
`RemovedResources` from the generator's explicit delta list, or — on a
full push only — as stored-names minus generated-names. -/
def pushDeltaXds (push : PushContext) (w : WatchedResource)
    (subscribe : Option (List String)) (reqFull : Bool) (g : GenResult)
    (disambiguator : String) : Option DeltaDiscoveryResponse :=
  let w' : WatchedResource := effectiveWatched w subscribe
  if g.generr = true ∨ (g.res = none ∧ g.deletedRes = none) then
    none
  else
    let res := g.res.getD []
    let currentResources := extractNames res
    let removed : List String :=
      if g.usedDelta then
        g.deletedRes.getD []
      else if reqFull then
        GoSet.sortedList (GoSet.delete (NewSet w'.ResourceNames) currentResources)
      else
        []
    some
      { TypeUrl := w'.TypeUrl,
        SystemVersionInfo := push.PushVersion,
        Nonce := nonce push.LedgerVersion disambiguator,
        Resources := res,
        RemovedResources := removed }

/-! ## `sendDelta` (outbound send and nonce/version bookkeeping) -/

/-- `v3.DebugType`: the type-URL namespace of debug pseudo-resources, whose
responses carry no bookkeeping. -/
def DebugType : String := "istio.io/debug"

/-- Go `strings.HasPrefix(s, p)`, computed through the character lists. -/
def strStartsWith (s p : String) : Bool := p.data.isPrefixOf s.data

/-- An opaque transport send failure. -/
structure SendError where
  message : String := ""
  deriving DecidableEq, Repr

/-- `Connection.sendDelta(res)`: hand the frame to the transport; on
success (and only then), for a non-debug type with a non-empty nonce,
record the sent nonce, version and timestamp in the watched-resource table
(creating the entry when absent). Returns the transport error and the
updated table. -/
def sendDelta (transportErr : Option SendError) (m : WatchedMap)
    (res : DeltaDiscoveryResponse) (now : Nat) : Option SendError × WatchedMap :=
  match transportErr with
  | some e => (some e, m)
  | none =>
      if res.Nonce ≠ "" ∧ strStartsWith res.TypeUrl DebugType = false then
        let w := (m res.TypeUrl).getD { TypeUrl := res.TypeUrl }
        (none, m.update res.TypeUrl
          { w with NonceSent := res.Nonce, VersionSent := res.SystemVersionInfo, LastSent := now })
      else
        (none, m)

/-! ## `receiveDelta` (the receive loop's first-frame validation) -/

/-- Errors surfaced through the connection's error channel. -/
inductive StreamError where
  | invalidArgument (message : String)
  | transport (message : String)
  | initFailure (message : String)
  deriving DecidableEq, Repr

/-- What `Recv` produced for the first frame: a parsed request, an
expected termination (client closed), or a transport error. -/
inductive RecvOutcome where
  | frame (req : DeltaDiscoveryRequest)
  | expectedTermination
  | transportError (message : String)
  deriving DecidableEq, Repr

/-- The fate of the first loop iteration of `receiveDelta`:
`terminate err initialized` means the loop returned, surfacing `err` on
the error channel (`none` for a clean end) having initialized the
connection or not; `forward req` means the request was handed to the main
loop with the connection initialized. -/
inductive ReceiveStep where
  | terminate (err : Option StreamError) (initialized : Bool)
  | forward (req : DeltaDiscoveryRequest)
  deriving DecidableEq, Repr

/-- The first iteration of the `receiveDelta` loop: a failed `Recv` ends
the loop (surfacing unexpected errors); a first frame without a node or
with an empty node id is rejected with an invalid-argument
"missing node information" error before any initialization; otherwise the
connection is initialized (`initErr` embeds the `initConnection` result)
and the request forwarded to the main loop. -/
def receiveDeltaFirst (recv : RecvOutcome) (initErr : Option StreamError) : ReceiveStep :=
  match recv with
  | .expectedTermination => .terminate none false
  | .transportError msg => .terminate (some (.transport msg)) false
  | .frame req =>
      match req.Node with
      | none => .terminate (some (.invalidArgument "missing node information")) false
      | some node =>
          if node.Id = "" then
            .terminate (some (.invalidArgument "missing node information")) false
          else
            match initErr with
            | some e => .terminate (some e) false
            | none => .forward req

/-! # Claims -/

/-- C2: the new stored subscription set computed by `deltaWatchedResources`
equals the mathematical set `(previous ∪ subscribe) \ unsubscribe`;
subscribing an already-subscribed name is idempotent, unsubscribing a
never-subscribed name is a no-op, and over any sequence of requests the
stored set equals the result of applying each set operation in order. -/
theorem C2_deltaWatchedResources_set_semantics :
    (∀ (existing : List String) (request : DeltaDiscoveryRequest),
      (deltaWatchedResources existing request).toFinset =
        (existing.toFinset ∪ request.ResourceNamesSubscribe.toFinset) \
          request.ResourceNamesUnsubscribe.toFinset) ∧
    (∀ (existing : List String) (request : DeltaDiscoveryRequest) (a : String),
      a ∈ existing →
      (deltaWatchedResources existing
          { request with ResourceNamesSubscribe := a :: request.ResourceNamesSubscribe }).toFinset =
        (deltaWatchedResources existing request).toFinset) ∧
    (∀ (existing : List String) (request : DeltaDiscoveryRequest) (b : String),
      b ∉ existing → b ∉ request.ResourceNamesSubscribe →
      (deltaWatchedResources existing
          { request with ResourceNamesUnsubscribe := b :: request.ResourceNamesUnsubscribe }).toFinset =
        (deltaWatchedResources existing request).toFinset) ∧
    (∀ (init : List String) (reqs : List DeltaDiscoveryRequest),
      (reqs.foldl deltaWatchedResources init).toFinset =
        reqs.foldl
          (fun s r => (s ∪ r.ResourceNamesSubscribe.toFinset) \ r.ResourceNamesUnsubscribe.toFinset)
          init.toFinset) := by
  refine ⟨deltaWatchedResources_toFinset, ?_, ?_, ?_⟩
  · intro existing request a ha
    rw [deltaWatchedResources_toFinset, deltaWatchedResources_toFinset]
    ext x
    simp only [Finset.mem_sdiff, Finset.mem_union, List.mem_toFinset, List.mem_cons]
    constructor
    · rintro ⟨hx | hx | hx, hu⟩
      · exact ⟨Or.inl hx, hu⟩
      · exact ⟨Or.inl (hx ▸ ha), hu⟩
      · exact ⟨Or.inr hx, hu⟩
    · rintro ⟨hx | hx, hu⟩
      · exact ⟨Or.inl hx, hu⟩
      · exact ⟨Or.inr (Or.inr hx), hu⟩
  · intro existing request b hbe hbs
    rw [deltaWatchedResources_toFinset, deltaWatchedResources_toFinset]
    ext x
    simp only [Finset.mem_sdiff, Finset.mem_union, List.mem_toFinset, List.mem_cons]
    constructor
    · rintro ⟨hx, hu⟩
      exact ⟨hx, fun h => hu (Or.inr h)⟩
    · rintro ⟨hx, hu⟩
      refine ⟨hx, ?_⟩
      rintro (rfl | h)
      · rcases hx with h | h
        · exact hbe h
        · exact hbs h
      · exact hu h
  · intro init reqs
    induction reqs generalizing init with
    | nil => rfl
    | cons r rs ih =>
        simp only [List.foldl_cons]
        rw [ih (deltaWatchedResources init r), deltaWatchedResources_toFinset]

/-- C2 witness: one concrete instantiation of each hypothesis-bearing
conjunct. -/
theorem C2_deltaWatchedResources_set_semantics_witness :
    (deltaWatchedResources ["a"]
        { TypeUrl := "t", ResourceNamesSubscribe := ["a"] }).toFinset =
      (deltaWatchedResources ["a"] { TypeUrl := "t" }).toFinset ∧
    (deltaWatchedResources ["a"]
        { TypeUrl := "t", ResourceNamesUnsubscribe := ["b"] }).toFinset =
      (deltaWatchedResources ["a"] { TypeUrl := "t" }).toFinset := by
  constructor
  · exact C2_deltaWatchedResources_set_semantics.2.1 ["a"] { TypeUrl := "t" } "a" (by decide)
  · exact C2_deltaWatchedResources_set_semantics.2.2.1 ["a"] { TypeUrl := "t" } "b"
      (by decide) (by decide)

/-- C9: a name appearing in both the subscribe and the unsubscribe list of
one request is absent from the resulting stored set (unsubscribe wins),
and the stored list returned by `deltaWatchedResources` is sorted and
duplicate-free. -/
theorem C9_unsubscribe_wins_sorted_nodup :
    ∀ (existing : List String) (request : DeltaDiscoveryRequest),
      (∀ a, a ∈ request.ResourceNamesSubscribe → a ∈ request.ResourceNamesUnsubscribe →
        a ∉ deltaWatchedResources existing request) ∧
      List.Sorted (· ≤ ·) (deltaWatchedResources existing request) ∧
      (deltaWatchedResources existing request).Nodup := by
  intro existing request
  refine ⟨?_, deltaWatchedResources_sorted existing request,
    deltaWatchedResources_nodup existing request⟩
  intro a _ hu hmem
  have := deltaWatchedResources_toFinset existing request
  have hx : a ∈ (deltaWatchedResources existing request).toFinset :=
    List.mem_toFinset.mpr hmem
  rw [this] at hx
  exact (Finset.mem_sdiff.mp hx).2 (List.mem_toFinset.mpr hu)

/-- C9 witness: the conjuncts at a concrete request carrying the same name
in both lists. -/
theorem C9_unsubscribe_wins_sorted_nodup_witness :
    "a" ∉ deltaWatchedResources ["b"]
      { TypeUrl := "t", ResourceNamesSubscribe := ["a"],
        ResourceNamesUnsubscribe := ["a"] } :=
  (C9_unsubscribe_wins_sorted_nodup ["b"]
    { TypeUrl := "t", ResourceNamesSubscribe := ["a"], ResourceNamesUnsubscribe := ["a"] }).1
    "a" (by decide) (by decide)

/-- A concrete watched resource used by witnesses: type `t`, subscribed to
`a`, last sent nonce `N1`. -/
def exW : WatchedResource := { TypeUrl := "t", ResourceNames := ["a"], NonceSent := "N1" }

/-- A concrete watched-resource table holding only `exW`. -/
def exM : WatchedMap := fun t => if t = "t" then some exW else none

/-- The empty watched-resource table. -/
def emptyWatched : WatchedMap := fun _ => none

/-- C1 counterexample: a NACK (error detail present) arriving as the very
first request for a type — clause (a) of the claim holds (no prior
WatchedResource), yet the processor does not owe a response, because the
error-detail check precedes the first-request check. -/
theorem C1_counterexample :
    emptyWatched "t" = none ∧
    shouldRespondBool emptyWatched
      { TypeUrl := "t", ErrorDetail := some { code := 13, message := "rejected" } } = false :=
  ⟨rfl, rfl⟩

/-- In the NACK branch (error detail present) no response is owed. -/
theorem shouldRespond_nack (m : WatchedMap) (request : DeltaDiscoveryRequest)
    (hed : request.ErrorDetail.isSome = true) :
    shouldRespondBool m request = false := by
  unfold shouldRespondBool shouldRespondDelta
  cases hm : m request.TypeUrl <;> simp [hed, hm]

/-- In the first-request branch a response is always owed and the new
entry records the requested names. -/
theorem shouldRespond_init (feat : Bool) (m : WatchedMap) (request : DeltaDiscoveryRequest)
    (hed : request.ErrorDetail = none) (hm : m request.TypeUrl = none) :
    shouldRespondDelta feat m request = .ok true
      (m.update request.TypeUrl
        { TypeUrl := request.TypeUrl, ResourceNames := deltaWatchedResources [] request }) := by
  unfold shouldRespondDelta
  simp [hed, hm]

/-- In the stale-nonce branch no response is owed and only the nonce-nacked
marker changes. -/
theorem shouldRespond_stale (feat : Bool) (m : WatchedMap)
    (request : DeltaDiscoveryRequest) (w : WatchedResource)
    (hed : request.ErrorDetail = none) (hm : m request.TypeUrl = some w)
    (h1 : request.ResponseNonce ≠ "") (h2 : request.ResponseNonce ≠ w.NonceSent) :
    shouldRespondDelta feat m request = .ok false
      (m.update request.TypeUrl { w with NonceNacked := "" }) := by
  unfold shouldRespondDelta
  simp [hed, hm, h1, h2]

/-- In the genuine-ACK branch (production configuration) the decision is
the negated name-set comparison and the ack bookkeeping is recorded. -/
theorem shouldRespond_ack (m : WatchedMap) (request : DeltaDiscoveryRequest)
    (w : WatchedResource)
    (hed : request.ErrorDetail = none) (hm : m request.TypeUrl = some w)
    (hok : request.ResponseNonce = "" ∨ request.ResponseNonce = w.NonceSent) :
    shouldRespondDelta false m request =
      .ok (!listEqualUnordered w.ResourceNames (deltaWatchedResources w.ResourceNames request))
        (m.update request.TypeUrl
          { w with
            NonceAcked := request.ResponseNonce,
            NonceNacked := "",
            ResourceNames := deltaWatchedResources w.ResourceNames request }) := by
  unfold shouldRespondDelta
  have hn : ¬(request.ResponseNonce ≠ "" ∧ request.ResponseNonce ≠ w.NonceSent) := by
    rcases hok with h | h <;> simp [h]
  simp [hed, hm, hn]

/-- C1 (amended): a response is owed iff the request carries no error
detail and either (a) there is no prior WatchedResource for its type, or
(b) its response nonce is empty or equals the last nonce sent and the
resulting subscription set differs, as an unordered set, from the previous
one. -/
theorem C1_amended_respond_iff (m : WatchedMap) (request : DeltaDiscoveryRequest) :
    shouldRespondBool m request = true ↔
      (request.ErrorDetail = none ∧
        (m request.TypeUrl = none ∨
          ∃ w, m request.TypeUrl = some w ∧
            (request.ResponseNonce = "" ∨ request.ResponseNonce = w.NonceSent) ∧
            listEqualUnordered w.ResourceNames
              (deltaWatchedResources w.ResourceNames request) = false)) := by
  cases hed : request.ErrorDetail with
  | some e =>
      have h := shouldRespond_nack m request (by simp [hed])
      simp [h, hed]
  | none =>
      cases hm : m request.TypeUrl with
      | none =>
          have h := shouldRespond_init false m request hed hm
          have hb : shouldRespondBool m request = true := by
            unfold shouldRespondBool
            rw [h]
          simp [hb, hed, hm]
      | some w =>
          by_cases h1 : request.ResponseNonce ≠ "" ∧ request.ResponseNonce ≠ w.NonceSent
          · have h := shouldRespond_stale false m request w hed hm h1.1 h1.2
            have hb : shouldRespondBool m request = false := by
              unfold shouldRespondBool
              rw [h]
            rw [hb]
            simp only [Bool.false_eq_true, false_iff]
            rintro ⟨-, hne | ⟨w', hw', hok, -⟩⟩
            · exact Option.noConfusion hne
            · injection hw' with hww
              subst hww
              rcases hok with h' | h'
              · exact h1.1 h'
              · exact h1.2 h'
          · push_neg at h1
            have hok : request.ResponseNonce = "" ∨ request.ResponseNonce = w.NonceSent := by
              by_cases he : request.ResponseNonce = ""
              · exact Or.inl he
              · exact Or.inr (h1 he)
            have h := shouldRespond_ack m request w hed hm hok
            have hb : shouldRespondBool m request =
                !listEqualUnordered w.ResourceNames
                  (deltaWatchedResources w.ResourceNames request) := by
              unfold shouldRespondBool
              rw [h]
            rw [hb]
            constructor
            · intro hx
              refine ⟨rfl, Or.inr ⟨w, rfl, hok, ?_⟩⟩
              simpa using hx
            · rintro ⟨-, hne | ⟨w', hw', -, hch⟩⟩
              · exact Option.noConfusion hne
              · injection hw' with hww
                subst hww
                simp [hch]


/-- C1 witness: the amended iff applied at a concrete first request. -/
theorem C1_amended_respond_iff_witness :
    shouldRespondBool emptyWatched { TypeUrl := "t", ResourceNamesSubscribe := ["a"] } = true :=
  (C1_amended_respond_iff emptyWatched
    { TypeUrl := "t", ResourceNamesSubscribe := ["a"] }).mpr ⟨rfl, Or.inl rfl⟩

/-- The full result of the NACK branch: no response, and the nonce-nacked
marker of an existing entry records the rejected nonce. -/
theorem shouldRespond_nackResult (feat : Bool) (m : WatchedMap)
    (request : DeltaDiscoveryRequest) (hed : request.ErrorDetail.isSome = true) :
    shouldRespondDelta feat m request = .ok false
      (match m request.TypeUrl with
       | some w => m.update request.TypeUrl { w with NonceNacked := request.ResponseNonce }
       | none => m) := by
  unfold shouldRespondDelta
  cases hm : m request.TypeUrl <;> simp [hed, hm]

/-- C5: a stale ACK (non-empty nonce differing from the last sent nonce
for its type) draws no response; the nonce-nacked marker is cleared, while
the subscription names, acked/sent nonces, sent version and timestamp of
the entry — and every other type's entry — are left unchanged. -/
theorem C5_stale_nonce_frame (feat : Bool) (m : WatchedMap)
    (request : DeltaDiscoveryRequest) (w : WatchedResource)
    (hed : request.ErrorDetail = none)
    (hw : m request.TypeUrl = some w)
    (hne : request.ResponseNonce ≠ "")
    (hstale : request.ResponseNonce ≠ w.NonceSent) :
    ∃ m', shouldRespondDelta feat m request = .ok false m' ∧
      m' request.TypeUrl = some
        { TypeUrl := w.TypeUrl, ResourceNames := w.ResourceNames,
          NonceSent := w.NonceSent, NonceAcked := w.NonceAcked, NonceNacked := "",
          VersionSent := w.VersionSent, LastSent := w.LastSent } ∧
      (∀ t, t ≠ request.TypeUrl → m' t = m t) := by
  refine ⟨_, shouldRespond_stale feat m request w hed hw hne hstale, ?_, ?_⟩
  · simp [WatchedMap.update]
  · intro t ht
    simp [WatchedMap.update, ht]

/-- C5 witness: the stale-nonce frame property at a concrete table. -/
theorem C5_stale_nonce_frame_witness :
    ∃ m', shouldRespondDelta false exM { TypeUrl := "t", ResponseNonce := "N0" } = .ok false m' ∧
      m' "t" = some
        { TypeUrl := exW.TypeUrl, ResourceNames := exW.ResourceNames,
          NonceSent := exW.NonceSent, NonceAcked := exW.NonceAcked, NonceNacked := "",
          VersionSent := exW.VersionSent, LastSent := exW.LastSent } ∧
      m' "u" = exM "u" := by
  obtain ⟨m', h1, h2, h3⟩ := C5_stale_nonce_frame false exM
    { TypeUrl := "t", ResponseNonce := "N0" } exW rfl (by decide) (by decide) (by decide)
  exact ⟨m', h1, h2, h3 "u" (by decide)⟩

/-- C7: in the production configuration (unsafe assertions off) processing
never reaches the assertion failure, and in the genuine-ACK branch the
respond decision equals the negated name-set comparison — unaffected by
any disagreement with the nonce-based fresh-ACK indicator. -/
theorem C7_no_assertion_in_production (m : WatchedMap) (request : DeltaDiscoveryRequest) :
    (shouldRespondDelta false m request).failed = false ∧
    (∀ w, request.ErrorDetail = none → m request.TypeUrl = some w →
      (request.ResponseNonce = "" ∨ request.ResponseNonce = w.NonceSent) →
      shouldRespondBool m request =
        !(listEqualUnordered w.ResourceNames
          (deltaWatchedResources w.ResourceNames request))) := by
  have key : ∃ b m', shouldRespondDelta false m request = .ok b m' := by
    cases hed : request.ErrorDetail with
    | some e =>
        exact ⟨_, _, shouldRespond_nackResult false m request (by simp [hed])⟩
    | none =>
        cases hm : m request.TypeUrl with
        | none => exact ⟨_, _, shouldRespond_init false m request hed hm⟩
        | some w =>
            by_cases h1 : request.ResponseNonce ≠ "" ∧ request.ResponseNonce ≠ w.NonceSent
            · exact ⟨_, _, shouldRespond_stale false m request w hed hm h1.1 h1.2⟩
            · push_neg at h1
              have hok : request.ResponseNonce = "" ∨ request.ResponseNonce = w.NonceSent := by
                by_cases he : request.ResponseNonce = ""
                · exact Or.inl he
                · exact Or.inr (h1 he)
              exact ⟨_, _, shouldRespond_ack m request w hed hm hok⟩
  constructor
  · obtain ⟨b, m', h⟩ := key
    rw [h]
    rfl
  · intro w hed hm hok
    have h := shouldRespond_ack m request w hed hm hok
    unfold shouldRespondBool
    rw [h]

/-- C7 witness: no assertion failure and the set-comparison decision on a
concrete ACK whose fresh-ACK indicator disagrees with the set comparison
(non-empty matching nonce, unchanged set). -/
theorem C7_no_assertion_in_production_witness :
    (shouldRespondDelta false exM { TypeUrl := "t", ResponseNonce := "N1" }).failed = false ∧
    shouldRespondBool exM { TypeUrl := "t", ResponseNonce := "N1" } =
      !(listEqualUnordered exW.ResourceNames
        (deltaWatchedResources exW.ResourceNames { TypeUrl := "t", ResponseNonce := "N1" })) :=
  ⟨(C7_no_assertion_in_production exM { TypeUrl := "t", ResponseNonce := "N1" }).1,
   (C7_no_assertion_in_production exM { TypeUrl := "t", ResponseNonce := "N1" }).2
     exW rfl (by decide) (Or.inr (by decide))⟩

/-- Sanity: with unsafe assertions enabled the assertion failure is
reachable (spontaneous no-change request: empty nonce, unchanged set), so
C7's production-mode guarantee is not vacuous. -/
example :
    (shouldRespondDelta true exM
      { TypeUrl := "t", ResourceNamesSubscribe := ["a"] }).failed = true := by decide

/-- A queued (blocked) push carrying an older context, used by the C3 and
C4 witnesses. -/
def exQueued : PushRequest :=
  { Full := false, Push := { PushVersion := "old", LedgerVersion := "old" },
    Reason := [TriggerReason.configUpdate], Start := 5 }

/-- A blocked-push map holding `exQueued` for type `t`. -/
def exBlocked : BlockedMap := fun t => if t = "t" then some exQueued else none

/-- The latest global push context used by witnesses. -/
def exPushCtx : PushContext := { PushVersion := "new", LedgerVersion := "new" }

/-- C3 counterexample: a response is owed (`shouldRespond = true`) and a
deferred push is queued for the type, yet the processor supplies the
brand-new full push built from the latest global context — not the queued
push, whose context differs and which stays in the blocked map. -/
theorem C3_counterexample :
    exBlocked "t" = some exQueued ∧
    processDeltaRequestCore true exPushCtx exBlocked "t" 7 =
      .respond
        { Full := true, Push := exPushCtx, Reason := [TriggerReason.proxyRequest], Start := 7 }
        exBlocked ∧
    ({ Full := true, Push := exPushCtx, Reason := [TriggerReason.proxyRequest],
        Start := 7 } : PushRequest).Push ≠ exQueued.Push :=
  ⟨rfl, rfl, by decide⟩

/-- C3 (amended): when a response is owed the processor always supplies a
brand-new full push built from the latest global context, overriding any
queued blocked push (which it leaves in the map); the queued push is
supplied only when no response is owed, in which case it is dequeued, and
absent a queued push nothing is sent. -/
theorem C3_amended_fresh_full_push_wins (push : PushContext) (blocked : BlockedMap)
    (typeUrl : String) (now : Nat) :
    (processDeltaRequestCore true push blocked typeUrl now =
      .respond
        { Full := true, Push := push, Reason := [TriggerReason.proxyRequest], Start := now }
        blocked) ∧
    (∀ q, blocked typeUrl = some q →
      processDeltaRequestCore false push blocked typeUrl now =
        .respond { q with Reason := q.Reason ++ [TriggerReason.proxyRequest], Start := now }
          (blocked.erase typeUrl)) ∧
    (blocked typeUrl = none →
      processDeltaRequestCore false push blocked typeUrl now =
        .ackNoAction (blocked.erase typeUrl)) := by
  refine ⟨rfl, ?_, ?_⟩
  · intro q hq
    unfold processDeltaRequestCore
    simp [hq]
  · intro hq
    unfold processDeltaRequestCore
    simp [hq]

/-- C3 witness: the dequeue case of the amended claim at a concrete
blocked map. -/
theorem C3_amended_fresh_full_push_wins_witness :
    processDeltaRequestCore false exPushCtx exBlocked "t" 7 =
      .respond
        { exQueued with Reason := exQueued.Reason ++ [TriggerReason.proxyRequest], Start := 7 }
        (exBlocked.erase "t") :=
  (C3_amended_fresh_full_push_wins exPushCtx exBlocked "t" 7).2.1 exQueued rfl

/-- C4: per watched type — flow control disabled means push immediately
and unconditionally; flow control enabled pushes now iff the type is
synced or its stuck timeout elapsed; otherwise the push request is merged
into the blocked-push slot (combined with any existing deferred request:
reasons concatenated, full flag preserved, latest context — not replaced
by a duplicate), and nothing is sent now. -/
theorem C4_flow_control_schedule (efc synced timeout : Bool) (pr : PushRequest)
    (blocked : BlockedMap) (typeUrl : String) :
    (efc = false →
      pushConnectionDeltaStep efc synced timeout pr blocked typeUrl = .sendNow blocked) ∧
    (efc = true → (synced || timeout) = true →
      pushConnectionDeltaStep efc synced timeout pr blocked typeUrl = .sendNow blocked) ∧
    (efc = true → synced = false → timeout = false →
      pushConnectionDeltaStep efc synced timeout pr blocked typeUrl =
        .deferred (blocked.update typeUrl (PushRequest.copyMerge (blocked typeUrl) pr)) ∧
      (blocked typeUrl = none → PushRequest.copyMerge (blocked typeUrl) pr = pr) ∧
      (∀ q, blocked typeUrl = some q →
        (PushRequest.copyMerge (blocked typeUrl) pr).Full = (q.Full || pr.Full) ∧
        (PushRequest.copyMerge (blocked typeUrl) pr).Reason = q.Reason ++ pr.Reason ∧
        (PushRequest.copyMerge (blocked typeUrl) pr).Push = pr.Push)) := by
  refine ⟨?_, ?_, ?_⟩
  · rintro rfl
    rfl
  · rintro rfl hst
    unfold pushConnectionDeltaStep
    simp [hst]
  · rintro rfl rfl rfl
    refine ⟨rfl, ?_, ?_⟩
    · intro hq
      rw [hq]
      rfl
    · intro q hq
      rw [hq]
      exact ⟨rfl, rfl, rfl⟩

/-- C4 witness: the immediate-push and the merge-into-blocked-slot cases
at concrete inputs. -/
theorem C4_flow_control_schedule_witness :
    pushConnectionDeltaStep false false false exQueued exBlocked "t" = .sendNow exBlocked ∧
    pushConnectionDeltaStep true false false
        { Full := true, Push := exPushCtx, Reason := [TriggerReason.globalUpdate], Start := 9 }
        exBlocked "t" =
      .deferred (exBlocked.update "t"
        (PushRequest.copyMerge (exBlocked "t")
          { Full := true, Push := exPushCtx, Reason := [TriggerReason.globalUpdate], Start := 9 })) ∧
    (PushRequest.copyMerge (exBlocked "t")
        { Full := true, Push := exPushCtx, Reason := [TriggerReason.globalUpdate], Start := 9 }).Reason =
      exQueued.Reason ++ [TriggerReason.globalUpdate] := by
  refine ⟨(C4_flow_control_schedule false false false exQueued exBlocked "t").1 rfl, ?_, ?_⟩
  · exact ((C4_flow_control_schedule true false false
      { Full := true, Push := exPushCtx, Reason := [TriggerReason.globalUpdate], Start := 9 }
      exBlocked "t").2.2 rfl rfl rfl).1
  · exact (((C4_flow_control_schedule true false false
      { Full := true, Push := exPushCtx, Reason := [TriggerReason.globalUpdate], Start := 9 }
      exBlocked "t").2.2 rfl rfl rfl).2.2 exQueued rfl).2.1

/-- The set-difference shape of the inferred removed-resources list. -/
theorem sortedList_delete_NewSet_toFinset (a b : List String) :
    (GoSet.sortedList (GoSet.delete (NewSet a) b)).toFinset =
      a.toFinset \ b.toFinset := by
  ext x
  simp [GoSet.sortedList, GoSet.delete, NewSet, List.mem_insertionSort,
    List.mem_filter, List.mem_dedup, and_comm]

/-- C6: in the push send path, the removed-resources list of the outbound
response is the generator's explicit removed list verbatim when the
generator reported that it used delta; otherwise, exactly on a full push,
it is (the watched names used for generation) minus (names of the
generated resources); a non-full push with a non-delta generator reports
no removed resources. -/
theorem C6_removed_resources (push : PushContext) (w : WatchedResource)
    (subscribe : Option (List String)) (reqFull : Bool) (g : GenResult)
    (dis : String) (resp : DeltaDiscoveryResponse)
    (h : pushDeltaXds push w subscribe reqFull g dis = some resp) :
    (g.usedDelta = true → resp.RemovedResources = g.deletedRes.getD []) ∧
    (g.usedDelta = false → reqFull = true →
      resp.RemovedResources.toFinset =
        (effectiveWatched w subscribe).ResourceNames.toFinset \
          (extractNames (g.res.getD [])).toFinset) ∧
    (g.usedDelta = false → reqFull = false → resp.RemovedResources = []) := by
  unfold pushDeltaXds at h
  split at h
  · exact absurd h (by simp)
  · injection h with h
    subst h
    refine ⟨?_, ?_, ?_⟩
    · intro hud
      simp [hud]
    · intro hud hfull
      simp only [hud, Bool.false_eq_true, if_false, hfull, if_true]
      exact sortedList_delete_NewSet_toFinset _ _
    · intro hud hfull
      simp [hud, hfull]

/-- C6 witness: a full push with a non-delta generator over stored names
`{a, b}` generating only `b` reports removed set `{a}`. -/
theorem C6_removed_resources_witness :
    ∃ resp,
      pushDeltaXds exPushCtx { TypeUrl := "t", ResourceNames := ["a", "b"] } none true
        { res := some [{ Name := "b" }] } "d" = some resp ∧
      resp.RemovedResources.toFinset =
        (effectiveWatched { TypeUrl := "t", ResourceNames := ["a", "b"] } none).ResourceNames.toFinset \
          (["b"] : List String).toFinset := by
  refine ⟨_, rfl, ?_⟩
  exact (C6_removed_resources exPushCtx { TypeUrl := "t", ResourceNames := ["a", "b"] } none true
    { res := some [{ Name := "b" }] } "d" _ rfl).2.1 rfl rfl

/-- C8: a first frame without node identity (no node, or an empty node id)
terminates the receive loop with the invalid-argument
"missing node information" error surfaced on the error channel, without
the connection ever being initialized or registered. -/
theorem C8_missing_node_fatal (recv : RecvOutcome) (initErr : Option StreamError)
    (req : DeltaDiscoveryRequest)
    (hrecv : recv = .frame req)
    (hnode : req.Node = none ∨ ∃ n, req.Node = some n ∧ n.Id = "") :
    receiveDeltaFirst recv initErr =
      .terminate (some (.invalidArgument "missing node information")) false := by
  subst hrecv
  rcases hnode with hn | ⟨n, hn, hid⟩
  · simp [receiveDeltaFirst, hn]
  · simp [receiveDeltaFirst, hn, hid]

/-- C8 witness: a concrete first frame with an empty node id. -/
theorem C8_missing_node_fatal_witness :
    receiveDeltaFirst (.frame { TypeUrl := "t", Node := some { Id := "" } }) none =
      .terminate (some (.invalidArgument "missing node information")) false :=
  C8_missing_node_fatal (.frame { TypeUrl := "t", Node := some { Id := "" } }) none
    { TypeUrl := "t", Node := some { Id := "" } } rfl
    (Or.inr ⟨{ Id := "" }, rfl, rfl⟩)

/-- C10: sending a delta response updates exactly the sent-nonce,
sent-version and last-sent fields of its type's entry (creating the entry
if absent) iff the transport send succeeds, the nonce is non-empty and the
type is not a debug type; on a transport error, or for an empty nonce or a
debug type, the table is unchanged; other fields and other types' entries
are never touched. -/
theorem C10_sendDelta_bookkeeping (transportErr : Option SendError) (m : WatchedMap)
    (res : DeltaDiscoveryResponse) (now : Nat) :
    (∀ e, transportErr = some e → sendDelta transportErr m res now = (some e, m)) ∧
    (transportErr = none → (res.Nonce = "" ∨ strStartsWith res.TypeUrl DebugType = true) →
      sendDelta transportErr m res now = (none, m)) ∧
    (transportErr = none → res.Nonce ≠ "" → strStartsWith res.TypeUrl DebugType = false →
      ∃ w' m2,
        sendDelta transportErr m res now = (none, m2) ∧
        m2 res.TypeUrl = some w' ∧
        w'.NonceSent = res.Nonce ∧
        w'.VersionSent = res.SystemVersionInfo ∧
        w'.LastSent = now ∧
        w'.TypeUrl = ((m res.TypeUrl).getD { TypeUrl := res.TypeUrl }).TypeUrl ∧
        w'.ResourceNames = ((m res.TypeUrl).getD { TypeUrl := res.TypeUrl }).ResourceNames ∧
        w'.NonceAcked = ((m res.TypeUrl).getD { TypeUrl := res.TypeUrl }).NonceAcked ∧
        w'.NonceNacked = ((m res.TypeUrl).getD { TypeUrl := res.TypeUrl }).NonceNacked ∧
        (∀ t, t ≠ res.TypeUrl → m2 t = m t)) := by
  refine ⟨?_, ?_, ?_⟩
  · rintro e rfl
    rfl
  · rintro rfl hskip
    unfold sendDelta
    rcases hskip with h | h
    · simp [h]
    · simp [h]
  · rintro rfl hnonce hdebug
    have hsend : sendDelta none m res now =
        (none, m.update res.TypeUrl
          { (m res.TypeUrl).getD { TypeUrl := res.TypeUrl } with
            NonceSent := res.Nonce, VersionSent := res.SystemVersionInfo, LastSent := now }) := by
      unfold sendDelta
      exact if_pos ⟨hnonce, hdebug⟩
    refine ⟨{ (m res.TypeUrl).getD { TypeUrl := res.TypeUrl } with
                NonceSent := res.Nonce, VersionSent := res.SystemVersionInfo, LastSent := now },
            _, hsend, ?_, rfl, rfl, rfl, rfl, rfl, rfl, rfl, ?_⟩
    · simp [WatchedMap.update]
    · intro t ht
      simp [WatchedMap.update, ht]

/-- C10 witness: a successful send of nonce `N2` for type `t` against the
concrete table, plus the frame fact for type `u`. -/
theorem C10_sendDelta_bookkeeping_witness :
    ∃ w',
      (sendDelta none exM { TypeUrl := "t", SystemVersionInfo := "v2", Nonce := "N2" } 9).1 = none ∧
      (sendDelta none exM { TypeUrl := "t", SystemVersionInfo := "v2", Nonce := "N2" } 9).2 "t" =
        some w' ∧
      w'.NonceSent = "N2" ∧
      w'.VersionSent = "v2" ∧
      w'.LastSent = 9 ∧
      w'.ResourceNames = exW.ResourceNames := by
  obtain ⟨w', m2, h1, h2, h3, h4, h5, h6, h7, h8, h9, h10⟩ :=
    (C10_sendDelta_bookkeeping none exM
      { TypeUrl := "t", SystemVersionInfo := "v2", Nonce := "N2" } 9).2.2 rfl
      (by decide) (by decide)
  refine ⟨w', ?_, ?_, h3, h4, h5, by rw [h7]; rfl⟩
  · rw [h1]
  · rw [h1]
    exact h2
